import Mathlib

/-!
Verification of the screen2cam frame pipeline against its specification.

The C sources are shallowly embedded: byte buffers become functions
`Nat → Nat`, pointer writes become pointwise function updates, machine
integer arithmetic becomes `Int` arithmetic (the values involved are far
below 2^31, so no wraparound can occur), and the arithmetic right shift
`>> 8` on a (possibly negative) C int becomes floor division by 256
(`Int.fdiv`).
-/

namespace Screen2Cam

/-! ## convert.c — bgra_to_yuv420p -/

/-- Model of the C cast `(uint8_t)(x < 0 ? 0 : (x > 255 ? 255 : x))`
used on each computed sample in `convert.c`. -/
def clampByte (x : Int) : Nat :=
  if x < 0 then 0 else if x > 255 then 255 else x.toNat

/-- Pointwise memory write: `store d k v` is buffer `d` with byte `k`
set to `v`. -/
def store (d : Nat → Nat) (k v : Nat) : Nat → Nat :=
  fun k' => if k' = k then v else d k'

/-- Luma value computed at pixel (row `j`, column `i`) by `convert.c`
lines 24-31: bytes `b,g,r` are read at `(j*width+i)*4 + 0,1,2` (the
alpha byte at `+3` is ignored) and
`y = ((66*r + 129*g + 25*b + 128) >> 8) + 16`, clamped to a byte. -/
def yOf (src : Nat → Nat) (w j i : Nat) : Nat :=
  let idx := (j * w + i) * 4
  let b : Int := src idx
  let g : Int := src (idx + 1)
  let r : Int := src (idx + 2)
  clampByte (Int.fdiv (66 * r + 129 * g + 25 * b + 128) 256 + 16)

/-- Chroma-blue value computed at pixel (`j`,`i`) by `convert.c` line 35:
`u = ((-38*r - 74*g + 112*b + 128) >> 8) + 128`, clamped to a byte. -/
def uOf (src : Nat → Nat) (w j i : Nat) : Nat :=
  let idx := (j * w + i) * 4
  let b : Int := src idx
  let g : Int := src (idx + 1)
  let r : Int := src (idx + 2)
  clampByte (Int.fdiv ((-38) * r - 74 * g + 112 * b + 128) 256 + 128)

/-- Chroma-red value computed at pixel (`j`,`i`) by `convert.c` line 36:
`v = ((112*r - 94*g - 18*b + 128) >> 8) + 128`, clamped to a byte. -/
def vOf (src : Nat → Nat) (w j i : Nat) : Nat :=
  let idx := (j * w + i) * 4
  let b : Int := src idx
  let g : Int := src (idx + 1)
  let r : Int := src (idx + 2)
  clampByte (Int.fdiv (112 * r - 94 * g - 18 * b + 128) 256 + 128)

/-- One iteration of the inner loop body of `bgra_to_yuv420p`
(`convert.c` lines 22-41): write the luma byte at `y_plane[j*width+i]`,
and when `j` and `i` are both even additionally write the chroma bytes at
`u_plane[ci]` and `v_plane[ci]` where `ci = (j/2)*half_w + i/2`,
`u_plane = dst + width*height` and `v_plane = u_plane + half_w*half_h`. -/
def convertPixel (src : Nat → Nat) (w h j i : Nat) (d : Nat → Nat) : Nat → Nat :=
  if j % 2 = 0 ∧ i % 2 = 0 then
    store (store (store d (j * w + i) (yOf src w j i))
            (w * h + ((j / 2) * (w / 2) + i / 2)) (uOf src w j i))
      (w * h + (w / 2) * (h / 2) + ((j / 2) * (w / 2) + i / 2)) (vOf src w j i)
  else store d (j * w + i) (yOf src w j i)

/-- The inner loop of `bgra_to_yuv420p` run for columns `0 ≤ i < n` of
row `j` (the C code runs it with `n = width`). -/
def convertRowN (src : Nat → Nat) (w h j n : Nat) (d : Nat → Nat) : Nat → Nat :=
  (List.range n).foldl (fun d i => convertPixel src w h j i d) d

/-- The outer loop of `bgra_to_yuv420p` run for rows `0 ≤ j < m`
(the C code runs it with `m = height`). -/
def convertRows (src : Nat → Nat) (w h m : Nat) (d : Nat → Nat) : Nat → Nat :=
  (List.range m).foldl (fun d j => convertRowN src w h j w d) d

/-- `bgra_to_yuv420p(src, dst, width, height)` from `convert.c`:
the destination buffer `d` after both loops have run. -/
def bgra_to_yuv420p (src : Nat → Nat) (w h : Nat) (d : Nat → Nat) : Nat → Nat :=
  convertRows src w h h d

/-- An all-white BGRA source image: every byte is 255. -/
def whiteSrc : Nat → Nat := fun _ => 255

/-- An all-black BGRA source image: every byte is 0. -/
def blackSrc : Nat → Nat := fun _ => 0

/-- An all-zero destination buffer. -/
def zeroBuf : Nat → Nat := fun _ => 0

/-- Set of destination indices written by the loop body at pixel (`j`,`i`):
the luma byte always, the two chroma bytes when `j` and `i` are even. -/
def touches (w h j i k : Nat) : Prop :=
  k = j * w + i ∨
    (j % 2 = 0 ∧ i % 2 = 0 ∧
      (k = w * h + ((j / 2) * (w / 2) + i / 2) ∨
       k = w * h + (w / 2) * (h / 2) + ((j / 2) * (w / 2) + i / 2)))

/-! ## Reference conversion, written from the specification (for C3) -/

/-- Written from the spec: `clamp(x, lo, hi)`. -/
def specClamp (lo hi x : Int) : Int := max lo (min hi x)

/-- Written from the spec: `Y = clamp(((66*R + 129*G + 25*B + 128) >> 8) + 16, 0, 255)`. -/
def specY (r g b : Int) : Int :=
  specClamp 0 255 (Int.fdiv (66 * r + 129 * g + 25 * b + 128) 256 + 16)

/-- Written from the spec: `U = clamp(((-38*R - 74*G + 112*B + 128) >> 8) + 128, 0, 255)`. -/
def specU (r g b : Int) : Int :=
  specClamp 0 255 (Int.fdiv ((-38) * r - 74 * g + 112 * b + 128) 256 + 128)

/-- Written from the spec: `V = clamp(((112*R - 94*G - 18*B + 128) >> 8) + 128, 0, 255)`. -/
def specV (r g b : Int) : Int :=
  specClamp 0 255 (Int.fdiv (112 * r - 94 * g - 18 * b + 128) 256 + 128)

/-- Blue byte of BGRA pixel (`j`,`i`). -/
def pixB (src : Nat → Nat) (w j i : Nat) : Int := src ((j * w + i) * 4)

/-- Green byte of BGRA pixel (`j`,`i`). -/
def pixG (src : Nat → Nat) (w j i : Nat) : Int := src ((j * w + i) * 4 + 1)

/-- Red byte of BGRA pixel (`j`,`i`); the alpha byte at offset 3 is ignored. -/
def pixR (src : Nat → Nat) (w j i : Nat) : Int := src ((j * w + i) * 4 + 2)

/-- Written from the spec: the reference planar 4:2:0 output — the
full-resolution luma plane first (row-major, width*height bytes), then the
chroma-blue plane, then the chroma-red plane, each row-major at half
resolution, with chroma sampled from each 2x2 block's top-left pixel
(not averaged); bytes beyond the width*height + 2*(width/2)*(height/2)
output are not part of the output and keep the caller's buffer contents. -/
def reference_yuv420 (src : Nat → Nat) (w h : Nat) (d : Nat → Nat) : Nat → Nat :=
  fun k =>
    if k < w * h then
      (specY (pixR src w (k / w) (k % w)) (pixG src w (k / w) (k % w))
        (pixB src w (k / w) (k % w))).toNat
    else if k < w * h + (w / 2) * (h / 2) then
      let c := k - w * h
      let bj := c / (w / 2)
      let bi := c % (w / 2)
      (specU (pixR src w (2 * bj) (2 * bi)) (pixG src w (2 * bj) (2 * bi))
        (pixB src w (2 * bj) (2 * bi))).toNat
    else if k < w * h + 2 * ((w / 2) * (h / 2)) then
      let c := k - (w * h + (w / 2) * (h / 2))
      let bj := c / (w / 2)
      let bi := c % (w / 2)
      (specV (pixR src w (2 * bj) (2 * bi)) (pixG src w (2 * bj) (2 * bi))
        (pixB src w (2 * bj) (2 * bi))).toNat
    else d k

/-! ## capture_win.c — DXGI desktop-duplication capture -/

/-- Capture session state for the DXGI variant: the fixed dimensions
discovered at open time plus the persistent CPU-side BGRA buffer
(`struct capture_ctx` in capture_win.c; the COM handles carry no data
relevant to the properties verified here). -/
structure CapState where
  width : Nat
  height : Nat
  buffer : Nat → Nat

/-- Outcome of the AcquireNextFrame / QueryInterface / Map sequence inside
one `capture_grab` call. `success` carries the mapped staging-texture bytes
`pData` and the `RowPitch` reported by the map. -/
inductive AcquireOutcome where
  | timeout
  | accessLost
  | acquireFailed
  | texQueryFailed
  | mapFailed
  | success (pData : Nat → Nat) (rowPitch : Nat)

/-- Copy of the mapped pixels into the persistent buffer (capture_win.c
lines 235-245): a bulk memcpy of `dest_stride*height` bytes when `RowPitch`
equals `dest_stride = width*4`, otherwise a row-by-row copy of
`dest_stride` bytes from each `RowPitch`-spaced source row. -/
def copyFrame (w h : Nat) (pData : Nat → Nat) (rowPitch : Nat)
    (buf : Nat → Nat) : Nat → Nat :=
  let dest_stride := w * 4
  if rowPitch = dest_stride then
    fun k => if k < dest_stride * h then pData k else buf k
  else
    fun k => if k < dest_stride * h then
        pData ((k / dest_stride) * rowPitch + k % dest_stride)
      else buf k

/-- `capture_grab` from capture_win.c (lines 180-252): returns the frame
pointer (`none` models the C NULL return) and the post-call session state.
A timeout returns the previous buffer contents unchanged; access-lost and
every other failure return NULL with the buffer untouched; success copies
the mapped frame into the persistent buffer and returns it. -/
def capture_grab (st : CapState) : AcquireOutcome → Option (Nat → Nat) × CapState
  | .timeout => (some st.buffer, st)
  | .accessLost => (none, st)
  | .acquireFailed => (none, st)
  | .texQueryFailed => (none, st)
  | .mapFailed => (none, st)
  | .success pData rowPitch =>
      let buf := copyFrame st.width st.height pData rowPitch st.buffer
      (some buf, { st with buffer := buf })

/-- `capture_init` from capture_win.c allocates the persistent BGRA buffer
with `malloc` and never fills it (lines 160-166), so its initial contents
are indeterminate: they are modeled by an arbitrary `junk` function. -/
def capture_init_model (w h : Nat) (junk : Nat → Nat) : CapState :=
  { width := w, height := h, buffer := junk }

/-- `n+1` consecutive `capture_grab` calls that all hit the 100 ms
AcquireNextFrame timeout; yields the result of the last call. -/
def grabAllTimeouts (st : CapState) : Nat → Option (Nat → Nat) × CapState
  | 0 => capture_grab st .timeout
  | n + 1 => grabAllTimeouts (capture_grab st .timeout).2 n

/-! ## main.c — pacing loop and startup -/

/-- What one pacing-loop iteration does right after `capture_grab`
returns. -/
inductive LoopAction where
  | retryDelay (usec : Nat)
  | proceed
  | stop
  deriving DecidableEq

/-- Reaction of the pacing loop in `main` to the capture result
(main.c lines 109-114): a NULL frame logs, sleeps `usleep(100000)`
(100 ms) and `continue`s the loop; a non-NULL frame proceeds to convert
and deliver. No capture result makes the loop stop. -/
def loop_step_capture : Option (Nat → Nat) → LoopAction
  | none => .retryDelay 100000
  | some _ => .proceed

/-- Startup sequence of `main` (main.c lines 65-96): the fps range check
runs first and exits with code 1 on failure; only then is `capture_init`
attempted, then `vcam_open`, then the YUV buffer allocation; each failure
exits with code 1. Returns `some exitCode` when startup fails (`none` when
the pacing loop is reached), paired with whether `capture_init` was
called. -/
def mainStartup (fps : Int) (capOk camOk allocOk : Bool) : Option Nat × Bool :=
  if fps < 1 ∨ fps > 60 then (some 1, false)
  else if !capOk then (some 1, true)
  else if !camOk then (some 1, true)
  else if !allocOk then (some 1, true)
  else (none, true)

/-- Sleep step at the end of each pacing iteration (main.c lines 128-135):
`remaining = frame_ns - elapsed`; `nanosleep(remaining)` runs only when
`remaining > 0`. Returns the nanoseconds slept and whether `nanosleep`
was called. -/
def pacing_sleep (frame_ns elapsed : Int) : Int × Bool :=
  let remaining := frame_ns - elapsed
  if remaining > 0 then (remaining, true) else (0, false)

/-! ## vcam.c / vcam_win.c — delivery sink -/

/-- Frame size fixed at `vcam_open` (vcam.c line 34, vcam_win.c line 41):
`width * height * 3 / 2` bytes for YUV420P. -/
def vcam_frame_size (w h : Nat) : Nat := w * h * 3 / 2

/-- Outcome of one `write` call inside the `vcam_write` loop: `ok n`
models a return of `n ≥ 0` bytes accepted (the kernel never accepts more
than requested, hence the `min` in the loop model); `eintr` models `-1`
with `errno == EINTR`; `fatal` models `-1` with any other `errno`. -/
inductive WriteResp where
  | ok (n : Nat)
  | eintr
  | fatal
  deriving DecidableEq

/-- The write loop of `vcam_write` (vcam.c lines 61-72, vcam_win.c lines
71-84), driven by the list of syscall outcomes: while
`written < frame_size`, issue a write of the remaining bytes; on EINTR
retry, on any other error return -1, otherwise advance `written` and
append the accepted bytes to the output. Returns `none` when the outcome
list is exhausted with the loop still running, otherwise
`some (return value, bytes emitted to the destination)`. -/
def writeLoop (fs : Nat) (src : List Nat) (written : Nat) (out : List Nat) :
    List WriteResp → Option (Int × List Nat)
  | [] => if fs ≤ written then some (0, out) else none
  | r :: rest =>
    if fs ≤ written then some (0, out)
    else match r with
      | .eintr => writeLoop fs src written out rest
      | .fatal => some (-1, out)
      | .ok n =>
          let accepted := min n (fs - written)
          writeLoop fs src (written + accepted)
            (out ++ (src.drop written).take accepted) rest

/-- `vcam_write` (vcam.c lines 56-73, vcam_win.c lines 66-85): a frame
shorter than `frame_size` is rejected with -1 before any write; otherwise
the blocking write loop runs. The frame buffer is the list `yuv` (its
length plays the role of the `len` argument). -/
def vcam_write (fs : Nat) (yuv : List Nat) (resps : List WriteResp) :
    Option (Int × List Nat) :=
  if yuv.length < fs then some (-1, []) else writeLoop fs yuv 0 [] resps

/-- Concrete DXGI capture session used to instantiate capture theorems. -/
def demoCap : CapState := { width := 2, height := 2, buffer := fun _ => 0 }

/-! ## Helper lemmas -/

lemma store_self (d : Nat → Nat) (k v : Nat) : store d k v k = v := by
  simp [store]

lemma store_other (d : Nat → Nat) {k k' : Nat} (v : Nat) (h : k' ≠ k) :
    store d k v k' = d k' := by
  simp [store, h]

lemma rowMajor_lt {w h j i : Nat} (hj : j < h) (hi : i < w) :
    j * w + i < w * h := by
  calc j * w + i < (j + 1) * w := by rw [Nat.succ_mul]; omega
    _ ≤ h * w := Nat.mul_le_mul_right w hj
    _ = w * h := Nat.mul_comm h w

lemma rowMajor_inj {w j i j' i' : Nat} (hi : i < w) (hi' : i' < w)
    (he : j * w + i = j' * w + i') : j = j' ∧ i = i' := by
  have hw : 0 < w := by omega
  have h1 : (j * w + i) / w = j := by
    rw [Nat.mul_comm j w, Nat.mul_add_div hw, Nat.div_eq_of_lt hi, Nat.add_zero]
  have h2 : (j' * w + i') / w = j' := by
    rw [Nat.mul_comm j' w, Nat.mul_add_div hw, Nat.div_eq_of_lt hi', Nat.add_zero]
  have hj : j = j' := by rw [← h1, ← h2, he]
  subst hj
  exact ⟨rfl, by omega⟩

lemma clampByte_eq_specClamp (x : Int) : clampByte x = (specClamp 0 255 x).toNat := by
  unfold clampByte specClamp
  split
  · omega
  · split <;> omega

lemma yOf_eq_specY (src : Nat → Nat) (w j i : Nat) :
    yOf src w j i =
      (specY (pixR src w j i) (pixG src w j i) (pixB src w j i)).toNat := by
  simp only [yOf, specY, pixR, pixG, pixB]
  exact clampByte_eq_specClamp _

lemma uOf_eq_specU (src : Nat → Nat) (w j i : Nat) :
    uOf src w j i =
      (specU (pixR src w j i) (pixG src w j i) (pixB src w j i)).toNat := by
  simp only [uOf, specU, pixR, pixG, pixB]
  exact clampByte_eq_specClamp _

lemma vOf_eq_specV (src : Nat → Nat) (w j i : Nat) :
    vOf src w j i =
      (specV (pixR src w j i) (pixG src w j i) (pixB src w j i)).toNat := by
  simp only [vOf, specV, pixR, pixG, pixB]
  exact clampByte_eq_specClamp _

lemma convertPixel_untouched (src : Nat → Nat) {w h j i k : Nat} (d : Nat → Nat)
    (hk : ¬ touches w h j i k) : convertPixel src w h j i d k = d k := by
  unfold convertPixel
  by_cases hp : j % 2 = 0 ∧ i % 2 = 0
  · rw [if_pos hp,
      store_other _ _ (fun he => hk (Or.inr ⟨hp.1, hp.2, Or.inr he⟩)),
      store_other _ _ (fun he => hk (Or.inr ⟨hp.1, hp.2, Or.inl he⟩)),
      store_other _ _ (fun he => hk (Or.inl he))]
  · rw [if_neg hp, store_other _ _ (fun he => hk (Or.inl he))]

lemma convertPixel_y (src : Nat → Nat) {w h j i : Nat} (d : Nat → Nat)
    (hj : j < h) (hi : i < w) :
    convertPixel src w h j i d (j * w + i) = yOf src w j i := by
  have hlt : j * w + i < w * h := rowMajor_lt hj hi
  unfold convertPixel
  by_cases hp : j % 2 = 0 ∧ i % 2 = 0
  · rw [if_pos hp, store_other _ _ (by omega), store_other _ _ (by omega),
      store_self]
  · rw [if_neg hp, store_self]

lemma convertPixel_u (src : Nat → Nat) {w h j i : Nat} (d : Nat → Nat)
    (hw : w % 2 = 0) (hh : h % 2 = 0) (hj : j < h) (hi : i < w)
    (hje : j % 2 = 0) (hie : i % 2 = 0) :
    convertPixel src w h j i d (w * h + ((j / 2) * (w / 2) + i / 2)) =
      uOf src w j i := by
  have hci : (j / 2) * (w / 2) + i / 2 < (w / 2) * (h / 2) :=
    rowMajor_lt (by omega) (by omega)
  unfold convertPixel
  rw [if_pos ⟨hje, hie⟩, store_other _ _ (by omega), store_self]

lemma convertPixel_v (src : Nat → Nat) {w h j i : Nat} (d : Nat → Nat)
    (hje : j % 2 = 0) (hie : i % 2 = 0) :
    convertPixel src w h j i d
      (w * h + (w / 2) * (h / 2) + ((j / 2) * (w / 2) + i / 2)) =
      vOf src w j i := by
  unfold convertPixel
  rw [if_pos ⟨hje, hie⟩, store_self]

lemma not_touches_low {w h j i k : Nat} (hk : k < w * h) (hne : k ≠ j * w + i) :
    ¬ touches w h j i k := by
  intro ht
  rcases ht with he | ⟨hje, hie, he | he⟩
  · exact hne he
  · omega
  · omega

lemma not_touches_u_plane {w h j i bj bi : Nat} (hw : w % 2 = 0)
    (hh : h % 2 = 0) (hj : j < h) (hi : i < w) (hbj : bj < h / 2)
    (hbi : bi < w / 2)
    (hne : ¬(j % 2 = 0 ∧ i % 2 = 0 ∧ j / 2 = bj ∧ i / 2 = bi)) :
    ¬ touches w h j i (w * h + (bj * (w / 2) + bi)) := by
  intro ht
  have hwh := rowMajor_lt hj hi
  rcases ht with he | ⟨hje, hie, he | he⟩
  · omega
  · have he' : (j / 2) * (w / 2) + i / 2 = bj * (w / 2) + bi := by omega
    have hinj := rowMajor_inj (w := w / 2) (by omega) hbi he'
    exact hne ⟨hje, hie, hinj.1, hinj.2⟩
  · have hq : bj * (w / 2) + bi < (w / 2) * (h / 2) := rowMajor_lt hbj hbi
    omega

lemma not_touches_v_plane {w h j i bj bi : Nat} (hw : w % 2 = 0)
    (hh : h % 2 = 0) (hj : j < h) (hi : i < w) (hbj : bj < h / 2)
    (hbi : bi < w / 2)
    (hne : ¬(j % 2 = 0 ∧ i % 2 = 0 ∧ j / 2 = bj ∧ i / 2 = bi)) :
    ¬ touches w h j i (w * h + (w / 2) * (h / 2) + (bj * (w / 2) + bi)) := by
  intro ht
  have hwh := rowMajor_lt hj hi
  have hq : bj * (w / 2) + bi < (w / 2) * (h / 2) := rowMajor_lt hbj hbi
  rcases ht with he | ⟨hje, hie, he | he⟩
  · omega
  · have hci : (j / 2) * (w / 2) + i / 2 < (w / 2) * (h / 2) :=
      rowMajor_lt (by omega) (by omega)
    omega
  · have he' : (j / 2) * (w / 2) + i / 2 = bj * (w / 2) + bi := by omega
    have hinj := rowMajor_inj (w := w / 2) (by omega) hbi he'
    exact hne ⟨hje, hie, hinj.1, hinj.2⟩

lemma not_touches_high {w h j i k : Nat} (hw : w % 2 = 0) (hh : h % 2 = 0)
    (hj : j < h) (hi : i < w)
    (hk : w * h + 2 * ((w / 2) * (h / 2)) ≤ k) : ¬ touches w h j i k := by
  intro ht
  have hwh := rowMajor_lt hj hi
  have hci : (j / 2) * (w / 2) + i / 2 < (w / 2) * (h / 2) :=
    rowMajor_lt (by omega) (by omega)
  rcases ht with he | ⟨hje, hie, he | he⟩ <;> omega

lemma convertRowN_succ (src : Nat → Nat) (w h j n : Nat) (d : Nat → Nat) :
    convertRowN src w h j (n + 1) d =
      convertPixel src w h j n (convertRowN src w h j n d) := by
  unfold convertRowN
  rw [List.range_succ, List.foldl_append]
  rfl

lemma convertRows_succ (src : Nat → Nat) (w h m : Nat) (d : Nat → Nat) :
    convertRows src w h (m + 1) d =
      convertRowN src w h m w (convertRows src w h m d) := by
  unfold convertRows
  rw [List.range_succ, List.foldl_append]
  rfl

lemma convertRowN_untouched (src : Nat → Nat) {w h j k : Nat} :
    ∀ n (d : Nat → Nat), (∀ i, i < n → ¬ touches w h j i k) →
      convertRowN src w h j n d k = d k := by
  intro n
  induction n with
  | zero => intro d _; rfl
  | succ n ih =>
      intro d hall
      rw [convertRowN_succ, convertPixel_untouched _ _ (hall n (by omega))]
      exact ih d fun i hi => hall i (by omega)

lemma convertRowN_y (src : Nat → Nat) {w h j i0 : Nat} (hj : j < h)
    (hi0 : i0 < w) :
    ∀ n (d : Nat → Nat), i0 < n → n ≤ w →
      convertRowN src w h j n d (j * w + i0) = yOf src w j i0 := by
  intro n
  induction n with
  | zero => intro d h0 _; omega
  | succ n ih =>
      intro d hi0n hnw
      rw [convertRowN_succ]
      by_cases hl : i0 = n
      · subst hl
        exact convertPixel_y src _ hj hi0
      · have hnt : ¬ touches w h j n (j * w + i0) :=
          not_touches_low (rowMajor_lt hj hi0) (by
            intro he
            exact hl (rowMajor_inj hi0 (by omega) he).2)
        rw [convertPixel_untouched _ _ hnt]
        exact ih d (by omega) (by omega)

lemma convertRowN_u (src : Nat → Nat) {w h j i0 : Nat} (hw : w % 2 = 0)
    (hh : h % 2 = 0) (hj : j < h) (hi0 : i0 < w) (hje : j % 2 = 0)
    (hie : i0 % 2 = 0) :
    ∀ n (d : Nat → Nat), i0 < n → n ≤ w →
      convertRowN src w h j n d (w * h + ((j / 2) * (w / 2) + i0 / 2)) =
        uOf src w j i0 := by
  intro n
  induction n with
  | zero => intro d h0 _; omega
  | succ n ih =>
      intro d hi0n hnw
      rw [convertRowN_succ]
      by_cases hl : i0 = n
      · subst hl
        exact convertPixel_u src _ hw hh hj hi0 hje hie
      · have hnt : ¬ touches w h j n (w * h + ((j / 2) * (w / 2) + i0 / 2)) := by
          have hb := @not_touches_u_plane w h j n (j / 2) (i0 / 2) hw hh hj
            (show n < w by omega) (by omega) (by omega) (by omega)
          exact hb
        rw [convertPixel_untouched _ _ hnt]
        exact ih d (by omega) (by omega)

lemma convertRowN_v (src : Nat → Nat) {w h j i0 : Nat} (hw : w % 2 = 0)
    (hh : h % 2 = 0) (hj : j < h) (hi0 : i0 < w) (hje : j % 2 = 0)
    (hie : i0 % 2 = 0) :
    ∀ n (d : Nat → Nat), i0 < n → n ≤ w →
      convertRowN src w h j n d
        (w * h + (w / 2) * (h / 2) + ((j / 2) * (w / 2) + i0 / 2)) =
        vOf src w j i0 := by
  intro n
  induction n with
  | zero => intro d h0 _; omega
  | succ n ih =>
      intro d hi0n hnw
      rw [convertRowN_succ]
      by_cases hl : i0 = n
      · subst hl
        exact convertPixel_v src _ hje hie
      · have hnt : ¬ touches w h j n
            (w * h + (w / 2) * (h / 2) + ((j / 2) * (w / 2) + i0 / 2)) := by
          have hb := @not_touches_v_plane w h j n (j / 2) (i0 / 2) hw hh hj
            (show n < w by omega) (by omega) (by omega) (by omega)
          exact hb
        rw [convertPixel_untouched _ _ hnt]
        exact ih d (by omega) (by omega)

lemma convertRows_untouched (src : Nat → Nat) {w h k : Nat} :
    ∀ m (d : Nat → Nat), (∀ j, j < m → ∀ i, i < w → ¬ touches w h j i k) →
      convertRows src w h m d k = d k := by
  intro m
  induction m with
  | zero => intro d _; rfl
  | succ m ih =>
      intro d hall
      rw [convertRows_succ]
      have h1 : convertRowN src w h m w (convertRows src w h m d) k
          = convertRows src w h m d k :=
        convertRowN_untouched src w _ fun i hi => hall m (by omega) i hi
      rw [h1]
      exact ih d fun j hj i hi => hall j (by omega) i hi

lemma convertRows_y (src : Nat → Nat) {w h j0 i0 : Nat} (hi0 : i0 < w) :
    ∀ m (d : Nat → Nat), j0 < m → m ≤ h →
      convertRows src w h m d (j0 * w + i0) = yOf src w j0 i0 := by
  intro m
  induction m with
  | zero => intro d h0 _; omega
  | succ m ih =>
      intro d hj0m hmh
      rw [convertRows_succ]
      by_cases hl : j0 = m
      · subst hl
        exact convertRowN_y src (by omega) hi0 w _ hi0 le_rfl
      · have hj0h : j0 < h := by omega
        have h1 : convertRowN src w h m w (convertRows src w h m d)
            (j0 * w + i0) = convertRows src w h m d (j0 * w + i0) :=
          convertRowN_untouched src w _ fun i hi =>
            not_touches_low (rowMajor_lt hj0h hi0) (by
              intro he
              exact hl (rowMajor_inj hi0 hi he).1)
        rw [h1]
        exact ih d (by omega) (by omega)

lemma convertRows_u (src : Nat → Nat) {w h j0 i0 : Nat} (hw : w % 2 = 0)
    (hh : h % 2 = 0) (hi0 : i0 < w) (hje : j0 % 2 = 0) (hie : i0 % 2 = 0) :
    ∀ m (d : Nat → Nat), j0 < m → m ≤ h →
      convertRows src w h m d (w * h + ((j0 / 2) * (w / 2) + i0 / 2)) =
        uOf src w j0 i0 := by
  intro m
  induction m with
  | zero => intro d h0 _; omega
  | succ m ih =>
      intro d hj0m hmh
      rw [convertRows_succ]
      by_cases hl : j0 = m
      · subst hl
        exact convertRowN_u src hw hh (by omega) hi0 hje hie w _ hi0 le_rfl
      · have h1 : convertRowN src w h m w (convertRows src w h m d)
            (w * h + ((j0 / 2) * (w / 2) + i0 / 2))
            = convertRows src w h m d
                (w * h + ((j0 / 2) * (w / 2) + i0 / 2)) :=
          convertRowN_untouched src w _ fun i hi =>
            @not_touches_u_plane w h m i (j0 / 2) (i0 / 2) hw hh (by omega)
              hi (by omega) (by omega) (by omega)
        rw [h1]
        exact ih d (by omega) (by omega)

lemma convertRows_v (src : Nat → Nat) {w h j0 i0 : Nat} (hw : w % 2 = 0)
    (hh : h % 2 = 0) (hi0 : i0 < w) (hje : j0 % 2 = 0) (hie : i0 % 2 = 0) :
    ∀ m (d : Nat → Nat), j0 < m → m ≤ h →
      convertRows src w h m d
        (w * h + (w / 2) * (h / 2) + ((j0 / 2) * (w / 2) + i0 / 2)) =
        vOf src w j0 i0 := by
  intro m
  induction m with
  | zero => intro d h0 _; omega
  | succ m ih =>
      intro d hj0m hmh
      rw [convertRows_succ]
      by_cases hl : j0 = m
      · subst hl
        exact convertRowN_v src hw hh (by omega) hi0 hje hie w _ hi0 le_rfl
      · have h1 : convertRowN src w h m w (convertRows src w h m d)
            (w * h + (w / 2) * (h / 2) + ((j0 / 2) * (w / 2) + i0 / 2))
            = convertRows src w h m d
                (w * h + (w / 2) * (h / 2) + ((j0 / 2) * (w / 2) + i0 / 2)) :=
          convertRowN_untouched src w _ fun i hi =>
            @not_touches_v_plane w h m i (j0 / 2) (i0 / 2) hw hh (by omega)
              hi (by omega) (by omega) (by omega)
        rw [h1]
        exact ih d (by omega) (by omega)

/-! ## Claim theorems -/

/-- C3: `bgra_to_yuv420p` equals the reference conversion written from the
spec: for every pixel the luma byte is
`clamp(((66*R + 129*G + 25*B + 128) >> 8) + 16, 0, 255)` with alpha
ignored, and chroma is computed exactly once per 2x2 pixel block, sampled
from the block's top-left pixel (not averaged), with the spec's U and V
formulas. -/
theorem bgra_to_yuv420p_matches_reference (src : Nat → Nat) (w h : Nat)
    (d : Nat → Nat) (hw : w % 2 = 0) (hh : h % 2 = 0) (k : Nat) :
    bgra_to_yuv420p src w h d k = reference_yuv420 src w h d k := by
  unfold bgra_to_yuv420p reference_yuv420
  by_cases h1 : k < w * h
  · rw [if_pos h1]
    have hwpos : 0 < w := by
      rcases Nat.eq_zero_or_pos w with h0 | h0
      · subst h0; simp at h1
      · exact h0
    have hj : k / w < h := by
      have h1' : k < h * w := by rw [Nat.mul_comm h w]; exact h1
      exact Nat.div_lt_iff_lt_mul hwpos |>.2 h1'
    have hi : k % w < w := Nat.mod_lt _ hwpos
    have hk2 : k / w * w + k % w = k := by
      rw [Nat.mul_comm (k / w) w]; exact Nat.div_add_mod k w
    have hval := convertRows_y src hi h d hj le_rfl
    rw [hk2] at hval
    rw [hval, yOf_eq_specY]
  · rw [if_neg h1]
    by_cases h2 : k < w * h + (w / 2) * (h / 2)
    · rw [if_pos h2]
      have hq : 0 < (w / 2) * (h / 2) := by omega
      have hw2 : 0 < w / 2 := by
        rcases Nat.eq_zero_or_pos (w / 2) with h0 | h0
        · rw [h0, Nat.zero_mul] at hq; omega
        · exact h0
      have hh2 : 0 < h / 2 := by
        rcases Nat.eq_zero_or_pos (h / 2) with h0 | h0
        · rw [h0, Nat.mul_zero] at hq; omega
        · exact h0
      have hbi : (k - w * h) % (w / 2) < w / 2 := Nat.mod_lt _ hw2
      have hbj : (k - w * h) / (w / 2) < h / 2 := by
        have hcq : k - w * h < h / 2 * (w / 2) := by
          rw [Nat.mul_comm (h / 2) (w / 2)]; omega
        exact Nat.div_lt_iff_lt_mul hw2 |>.2 hcq
      have hval := convertRows_u src hw hh
        (show 2 * ((k - w * h) % (w / 2)) < w by omega)
        (by omega) (by omega) h d
        (show 2 * ((k - w * h) / (w / 2)) < h by omega) le_rfl
      have e1 : 2 * ((k - w * h) / (w / 2)) / 2 = (k - w * h) / (w / 2) := by
        omega
      have e2 : 2 * ((k - w * h) % (w / 2)) / 2 = (k - w * h) % (w / 2) := by
        omega
      rw [e1, e2] at hval
      have hidx : w * h +
          ((k - w * h) / (w / 2) * (w / 2) + (k - w * h) % (w / 2)) = k := by
        have hdm := Nat.div_add_mod (k - w * h) (w / 2)
        have hdm' : (k - w * h) / (w / 2) * (w / 2) + (k - w * h) % (w / 2)
            = k - w * h := by
          rw [Nat.mul_comm ((k - w * h) / (w / 2)) (w / 2)]; exact hdm
        omega
      rw [hidx] at hval
      rw [hval, uOf_eq_specU]
    · rw [if_neg h2]
      by_cases h3 : k < w * h + 2 * ((w / 2) * (h / 2))
      · rw [if_pos h3]
        have hq : 0 < (w / 2) * (h / 2) := by omega
        have hw2 : 0 < w / 2 := by
          rcases Nat.eq_zero_or_pos (w / 2) with h0 | h0
          · rw [h0, Nat.zero_mul] at hq; omega
          · exact h0
        have hh2 : 0 < h / 2 := by
          rcases Nat.eq_zero_or_pos (h / 2) with h0 | h0
          · rw [h0, Nat.mul_zero] at hq; omega
          · exact h0
        have hbi : (k - (w * h + (w / 2) * (h / 2))) % (w / 2) < w / 2 :=
          Nat.mod_lt _ hw2
        have hbj : (k - (w * h + (w / 2) * (h / 2))) / (w / 2) < h / 2 := by
          have hcq : k - (w * h + (w / 2) * (h / 2)) < h / 2 * (w / 2) := by
            rw [Nat.mul_comm (h / 2) (w / 2)]; omega
          exact Nat.div_lt_iff_lt_mul hw2 |>.2 hcq
        have hval := convertRows_v src hw hh
          (show 2 * ((k - (w * h + (w / 2) * (h / 2))) % (w / 2)) < w by omega)
          (by omega) (by omega) h d
          (show 2 * ((k - (w * h + (w / 2) * (h / 2))) / (w / 2)) < h by omega)
          le_rfl
        have e1 : 2 * ((k - (w * h + (w / 2) * (h / 2))) / (w / 2)) / 2
            = (k - (w * h + (w / 2) * (h / 2))) / (w / 2) := by omega
        have e2 : 2 * ((k - (w * h + (w / 2) * (h / 2))) % (w / 2)) / 2
            = (k - (w * h + (w / 2) * (h / 2))) % (w / 2) := by omega
        rw [e1, e2] at hval
        have hidx : w * h + (w / 2) * (h / 2) +
            ((k - (w * h + (w / 2) * (h / 2))) / (w / 2) * (w / 2) +
              (k - (w * h + (w / 2) * (h / 2))) % (w / 2)) = k := by
          have hdm := Nat.div_add_mod (k - (w * h + (w / 2) * (h / 2))) (w / 2)
          have hdm' : (k - (w * h + (w / 2) * (h / 2))) / (w / 2) * (w / 2) +
              (k - (w * h + (w / 2) * (h / 2))) % (w / 2)
              = k - (w * h + (w / 2) * (h / 2)) := by
            rw [Nat.mul_comm ((k - (w * h + (w / 2) * (h / 2))) / (w / 2))
              (w / 2)]
            exact hdm
          omega
        rw [hidx] at hval
        rw [hval, vOf_eq_specV]
      · rw [if_neg h3]
        exact convertRows_untouched src h d fun j hjm i hi =>
          not_touches_high hw hh hjm hi (by omega)

/-- C3 witness: the reference equality instantiated at a concrete even-sized
image and index. -/
theorem bgra_matches_reference_witness :
    bgra_to_yuv420p whiteSrc 2 2 zeroBuf 0 =
      reference_yuv420 whiteSrc 2 2 zeroBuf 0 :=
  bgra_to_yuv420p_matches_reference whiteSrc 2 2 zeroBuf rfl rfl 0

/-- C4: for even width and height the output of `bgra_to_yuv420p` is laid
out as the full-resolution luma plane first (row-major, width*height
bytes), then the chroma-blue plane, then the chroma-red plane, each
row-major at half resolution; bytes past the end are untouched, and the
total output size `width*height + 2*(width/2)*(height/2)` equals
`width*height*3/2`. -/
theorem bgra_to_yuv420p_plane_layout (src : Nat → Nat) (w h : Nat)
    (d : Nat → Nat) (j i bj bi k : Nat) (hw : w % 2 = 0) (hh : h % 2 = 0)
    (hj : j < h) (hi : i < w) (hbj : bj < h / 2) (hbi : bi < w / 2)
    (hk : w * h + 2 * ((w / 2) * (h / 2)) ≤ k) :
    bgra_to_yuv420p src w h d (j * w + i) = yOf src w j i ∧
    bgra_to_yuv420p src w h d (w * h + (bj * (w / 2) + bi)) =
      uOf src w (2 * bj) (2 * bi) ∧
    bgra_to_yuv420p src w h d
        (w * h + (w / 2) * (h / 2) + (bj * (w / 2) + bi)) =
      vOf src w (2 * bj) (2 * bi) ∧
    bgra_to_yuv420p src w h d k = d k ∧
    w * h + 2 * ((w / 2) * (h / 2)) = w * h * 3 / 2 := by
  refine ⟨convertRows_y src hi h d hj le_rfl, ?_, ?_, ?_, ?_⟩
  · have hval := convertRows_u src hw hh (show 2 * bi < w by omega)
      (by omega) (by omega) h d (show 2 * bj < h by omega) le_rfl
    have e1 : 2 * bj / 2 = bj := by omega
    have e2 : 2 * bi / 2 = bi := by omega
    rw [e1, e2] at hval
    exact hval
  · have hval := convertRows_v src hw hh (show 2 * bi < w by omega)
      (by omega) (by omega) h d (show 2 * bj < h by omega) le_rfl
    have e1 : 2 * bj / 2 = bj := by omega
    have e2 : 2 * bi / 2 = bi := by omega
    rw [e1, e2] at hval
    exact hval
  · exact convertRows_untouched src h d fun j' hj' i' hi' =>
      not_touches_high hw hh hj' hi' hk
  · obtain ⟨a, rfl⟩ : ∃ a, w = 2 * a := ⟨w / 2, by omega⟩
    obtain ⟨b, rfl⟩ : ∃ b, h = 2 * b := ⟨h / 2, by omega⟩
    have e1 : 2 * a / 2 = a := by omega
    have e2 : 2 * b / 2 = b := by omega
    rw [e1, e2]
    have e3 : 2 * a * (2 * b) * 3 = 2 * (6 * (a * b)) := by ring
    rw [e3]
    have e4 : 2 * (6 * (a * b)) / 2 = 6 * (a * b) := by omega
    rw [e4]
    ring

/-- C4 witness: the layout theorem instantiated at a concrete 2x2 image. -/
theorem plane_layout_witness :
    bgra_to_yuv420p whiteSrc 2 2 zeroBuf (0 * 2 + 0) = yOf whiteSrc 2 0 0 ∧
    bgra_to_yuv420p whiteSrc 2 2 zeroBuf (2 * 2 + (0 * (2 / 2) + 0)) =
      uOf whiteSrc 2 (2 * 0) (2 * 0) ∧
    bgra_to_yuv420p whiteSrc 2 2 zeroBuf
        (2 * 2 + (2 / 2) * (2 / 2) + (0 * (2 / 2) + 0)) =
      vOf whiteSrc 2 (2 * 0) (2 * 0) ∧
    bgra_to_yuv420p whiteSrc 2 2 zeroBuf 6 = zeroBuf 6 ∧
    2 * 2 + 2 * ((2 / 2) * (2 / 2)) = 2 * 2 * 3 / 2 :=
  bgra_to_yuv420p_plane_layout whiteSrc 2 2 zeroBuf 0 0 0 0 6 rfl rfl
    (by decide) (by decide) (by decide) (by decide) (by decide)

/-- C2 counterexample: the all-white pixel (R,G,B)=(255,255,255) converts
to luma byte 235 (BT.601 limited-range white), which is not 255. -/
theorem white_luma_is_235_not_255 :
    bgra_to_yuv420p whiteSrc 2 2 zeroBuf 0 = 235 ∧ (235 : Nat) ≠ 255 :=
  ⟨by decide, by decide⟩

/-- C2 (amended): the all-white input pixel (255,255,255) produces Y=235,
U=128, V=128, and the all-black input pixel (0,0,0) produces Y=16, U=128,
V=128. -/
theorem white_black_conversion_values :
    (bgra_to_yuv420p whiteSrc 2 2 zeroBuf 0 = 235 ∧
     bgra_to_yuv420p whiteSrc 2 2 zeroBuf 4 = 128 ∧
     bgra_to_yuv420p whiteSrc 2 2 zeroBuf 5 = 128) ∧
    (bgra_to_yuv420p blackSrc 2 2 zeroBuf 0 = 16 ∧
     bgra_to_yuv420p blackSrc 2 2 zeroBuf 4 = 128 ∧
     bgra_to_yuv420p blackSrc 2 2 zeroBuf 5 = 128) := by
  exact ⟨⟨by decide, by decide, by decide⟩, by decide, by decide, by decide⟩

/-- C1 counterexample: at a concrete session, the access-lost condition is
reported with the same NULL signal as an ordinary recoverable acquisition
failure, and the pacing loop's reaction to that signal is a 100 ms retry,
not a stop. -/
theorem access_lost_not_distinct_not_stopping :
    (capture_grab demoCap .accessLost).1 =
      (capture_grab demoCap .acquireFailed).1 ∧
    loop_step_capture (capture_grab demoCap .accessLost).1 =
      LoopAction.retryDelay 100000 ∧
    LoopAction.retryDelay 100000 ≠ LoopAction.stop :=
  ⟨rfl, rfl, by decide⟩

/-- C1 (amended): `capture_grab` reports the access-lost condition with the
same NULL signal as every other capture failure, and the pacing loop in
`main` reacts to every failed capture by logging and retrying after a
fixed 100 ms delay; no capture result makes the loop stop. -/
theorem capture_failure_always_retried (st : CapState) :
    (capture_grab st .accessLost).1 = none ∧
    (capture_grab st .acquireFailed).1 = none ∧
    (capture_grab st .texQueryFailed).1 = none ∧
    (capture_grab st .mapFailed).1 = none ∧
    loop_step_capture (capture_grab st .accessLost).1 =
      LoopAction.retryDelay 100000 ∧
    (∀ res : Option (Nat → Nat), loop_step_capture res ≠ LoopAction.stop) := by
  refine ⟨rfl, rfl, rfl, rfl, rfl, ?_⟩
  intro res
  cases res <;> simp [loop_step_capture]

/-- C9: after any `capture_grab` call that returned a frame, a subsequent
timed-out grab returns exactly the same frame bytes, with the persistent
buffer and the whole session state unchanged by the timed-out call. -/
theorem timeout_returns_previous_frame (st : CapState) (o : AcquireOutcome)
    (buf : Nat → Nat) (st' : CapState)
    (hprev : capture_grab st o = (some buf, st')) :
    capture_grab st' .timeout = (some buf, st') := by
  cases o with
  | timeout =>
      simp only [capture_grab, Prod.mk.injEq, Option.some.injEq] at hprev
      obtain ⟨hb, hs⟩ := hprev
      subst hs
      subst hb
      rfl
  | accessLost =>
      simp only [capture_grab, Prod.mk.injEq] at hprev
      exact absurd hprev.1 (by simp)
  | acquireFailed =>
      simp only [capture_grab, Prod.mk.injEq] at hprev
      exact absurd hprev.1 (by simp)
  | texQueryFailed =>
      simp only [capture_grab, Prod.mk.injEq] at hprev
      exact absurd hprev.1 (by simp)
  | mapFailed =>
      simp only [capture_grab, Prod.mk.injEq] at hprev
      exact absurd hprev.1 (by simp)
  | success pData rowPitch =>
      simp only [capture_grab, Prod.mk.injEq, Option.some.injEq] at hprev
      obtain ⟨hb, hs⟩ := hprev
      subst hs
      subst hb
      rfl

/-- C9 witness: a timed-out grab after a timed-out grab returns the same
bytes with the state unchanged. -/
theorem timeout_previous_frame_witness :
    capture_grab demoCap .timeout = (some demoCap.buffer, demoCap) :=
  timeout_returns_previous_frame demoCap .timeout demoCap.buffer demoCap rfl

/-- C10: the persistent DXGI buffer is allocated by `malloc` without any
fill, so while every acquisition times out, `capture_grab` keeps returning
exactly the indeterminate open-time contents (modeled by the arbitrary
`junk` function) — in particular a non-zero `junk` shows the result need
not be a zero-filled frame — and the session state stays at its open-time
value until a first successful acquisition. -/
theorem timeouts_return_uninitialized_buffer (w h n : Nat)
    (junk : Nat → Nat) :
    grabAllTimeouts (capture_init_model w h junk) n =
      (some junk, capture_init_model w h junk) ∧
    (grabAllTimeouts (capture_init_model w h fun _ => 1) n).1 ≠
      some (fun _ => 0) := by
  have hmain : ∀ (jk : Nat → Nat) (m : Nat),
      grabAllTimeouts (capture_init_model w h jk) m =
        (some jk, capture_init_model w h jk) := by
    intro jk m
    induction m with
    | zero => rfl
    | succ m ih => exact ih
  refine ⟨hmain junk n, ?_⟩
  rw [hmain (fun _ => 1) n]
  intro he
  have h0 := congrFun (Option.some.inj he) 0
  simp at h0

/-- C8: the pacing sleep equals `max(0, target_interval - elapsed)`, is
never negative, and whenever elapsed time reaches the target interval the
iteration sleeps exactly 0 with the `nanosleep` call skipped. -/
theorem pacing_sleep_never_negative (frame_ns elapsed : Int) :
    (pacing_sleep frame_ns elapsed).1 = max 0 (frame_ns - elapsed) ∧
    0 ≤ (pacing_sleep frame_ns elapsed).1 ∧
    (frame_ns ≤ elapsed →
      (pacing_sleep frame_ns elapsed).1 = 0 ∧
      (pacing_sleep frame_ns elapsed).2 = false) := by
  simp only [pacing_sleep]
  split_ifs with hc
  · exact ⟨by omega, by omega, fun hle => absurd hc (by omega)⟩
  · exact ⟨by omega, by omega, fun hle => ⟨rfl, rfl⟩⟩

/-- C8 witness: with a 100 ns interval and 150 ns elapsed, the sleep is 0
and `nanosleep` is skipped. -/
theorem pacing_sleep_witness :
    (pacing_sleep 100 150).1 = 0 ∧ (pacing_sleep 100 150).2 = false :=
  (pacing_sleep_never_negative 100 150).2.2 (by decide)

/-- C7: the configured frame rate is accepted iff it lies in 1-60
inclusive; fps 0 and 61 exit with code 1 before `capture_init` runs, while
fps 1 and 60 reach the pacing loop. -/
theorem fps_range_validation :
    (∀ capOk camOk allocOk : Bool,
      mainStartup 0 capOk camOk allocOk = (some 1, false) ∧
      mainStartup 61 capOk camOk allocOk = (some 1, false)) ∧
    mainStartup 1 true true true = (none, true) ∧
    mainStartup 60 true true true = (none, true) ∧
    (∀ fps : Int, (mainStartup fps true true true).1 = none ↔
      1 ≤ fps ∧ fps ≤ 60) := by
  refine ⟨fun capOk camOk allocOk => ⟨?_, ?_⟩, by decide, by decide, ?_⟩
  · simp [mainStartup]
  · simp [mainStartup]
  · intro fps
    by_cases hc : fps < 1 ∨ fps > 60
    · simp only [mainStartup, if_pos hc]
      constructor
      · intro he
        exact absurd he (by simp)
      · intro hrange
        exact absurd hc (by omega)
    · simp only [mainStartup, if_neg hc]
      norm_num
      omega

/-- C7 witness: fps 0 exits with code 1 without calling `capture_init`. -/
theorem fps_range_witness :
    mainStartup 0 true true true = (some 1, false) :=
  (fps_range_validation.1 true true true).1

/-- C5: a frame shorter than `width*height*3/2` bytes is rejected by
`vcam_write` with -1 before any byte is written to the destination. -/
theorem vcam_write_short_frame_rejected (w h : Nat) (yuv : List Nat)
    (resps : List WriteResp) (hlen : yuv.length < vcam_frame_size w h) :
    vcam_write (vcam_frame_size w h) yuv resps = some (-1, []) := by
  unfold vcam_write
  rw [if_pos hlen]

/-- C5 witness: a 3-byte frame against a 2x2 sink (frame size 6) is
rejected with no output. -/
theorem vcam_write_short_frame_witness :
    vcam_write (vcam_frame_size 2 2) [1, 2, 3] [] = some (-1, []) :=
  vcam_write_short_frame_rejected 2 2 [1, 2, 3] [] (by decide)

lemma writeLoop_characterization (fs : Nat) (src : List Nat)
    (hfs : fs ≤ src.length) :
    ∀ (resps : List WriteResp) (written : Nat) (out : List Nat),
      out = src.take written → written ≤ fs →
      ∀ (r : Int) (o : List Nat),
        writeLoop fs src written out resps = some (r, o) →
        (r = 0 ∧ o = src.take fs) ∨ (r = -1 ∧ WriteResp.fatal ∈ resps) := by
  intro resps
  induction resps with
  | nil =>
      intro written out hout hwle r o heq
      simp only [writeLoop] at heq
      by_cases hge : fs ≤ written
      · rw [if_pos hge] at heq
        simp only [Option.some.injEq, Prod.mk.injEq] at heq
        refine Or.inl ⟨heq.1.symm, ?_⟩
        rw [← heq.2, hout, Nat.le_antisymm hwle hge]
      · rw [if_neg hge] at heq
        exact absurd heq (by simp)
  | cons resp rest ih =>
      intro written out hout hwle r o heq
      simp only [writeLoop] at heq
      by_cases hge : fs ≤ written
      · rw [if_pos hge] at heq
        simp only [Option.some.injEq, Prod.mk.injEq] at heq
        refine Or.inl ⟨heq.1.symm, ?_⟩
        rw [← heq.2, hout, Nat.le_antisymm hwle hge]
      · rw [if_neg hge] at heq
        cases resp with
        | eintr =>
            rcases ih written out hout hwle r o heq with hok | ⟨hr, hm⟩
            · exact Or.inl hok
            · exact Or.inr ⟨hr, List.mem_cons_of_mem _ hm⟩
        | fatal =>
            simp only [Option.some.injEq, Prod.mk.injEq] at heq
            exact Or.inr ⟨heq.1.symm, List.mem_cons_self _ _⟩
        | ok n =>
            rcases ih (written + min n (fs - written))
                (out ++ (src.drop written).take (min n (fs - written)))
                (by rw [hout]; exact (List.take_add src written _).symm)
                (by omega) r o heq with hok | ⟨hr, hm⟩
            · exact Or.inl hok
            · exact Or.inr ⟨hr, List.mem_cons_of_mem _ hm⟩

/-- C6: every completed `vcam_write` call on a buffer at least one frame
long either returns 0 having emitted exactly the first
`width*height*3/2` bytes of the buffer — partial writes and EINTR are
retried transparently, and bytes past the frame size are never written —
or returns -1, which can happen only when some `write` call failed with a
non-EINTR error; moreover a non-EINTR error on the first write makes
`vcam_write` return -1 immediately. -/
theorem vcam_write_exact_frame (w h : Nat) (yuv : List Nat)
    (resps : List WriteResp) (r : Int) (o : List Nat)
    (hlen : vcam_frame_size w h ≤ yuv.length)
    (heq : vcam_write (vcam_frame_size w h) yuv resps = some (r, o)) :
    ((r = 0 ∧ o = yuv.take (vcam_frame_size w h) ∧
        o.length = vcam_frame_size w h) ∨
      (r = -1 ∧ WriteResp.fatal ∈ resps)) ∧
    (0 < vcam_frame_size w h → ∀ rest : List WriteResp,
      vcam_write (vcam_frame_size w h) yuv (WriteResp.fatal :: rest) =
        some (-1, [])) := by
  constructor
  · unfold vcam_write at heq
    rw [if_neg (by omega)] at heq
    rcases writeLoop_characterization _ _ hlen resps 0 [] rfl
        (Nat.zero_le _) r o heq with ⟨hr, ho⟩ | hbad
    · refine Or.inl ⟨hr, ho, ?_⟩
      rw [ho, List.length_take]
      omega
    · exact Or.inr hbad
  · intro hpos rest
    unfold vcam_write
    rw [if_neg (by omega)]
    simp only [writeLoop]
    rw [if_neg (by omega)]

/-- C6 witness: a 2x2 sink (frame size 6) fed an 8-byte buffer through a
partial write, an EINTR retry and a final partial write emits exactly the
first 6 bytes and returns 0. -/
theorem vcam_write_exact_frame_witness :
    (((0 : Int) = 0 ∧
        ([1, 2, 3, 4, 5, 6] : List Nat) =
          List.take (vcam_frame_size 2 2) [1, 2, 3, 4, 5, 6, 7, 8] ∧
        ([1, 2, 3, 4, 5, 6] : List Nat).length = vcam_frame_size 2 2) ∨
      ((0 : Int) = -1 ∧
        WriteResp.fatal ∈ [WriteResp.ok 4, WriteResp.eintr, WriteResp.ok 5])) ∧
    (0 < vcam_frame_size 2 2 → ∀ rest : List WriteResp,
      vcam_write (vcam_frame_size 2 2) [1, 2, 3, 4, 5, 6, 7, 8]
          (WriteResp.fatal :: rest) = some (-1, [])) :=
  vcam_write_exact_frame 2 2 [1, 2, 3, 4, 5, 6, 7, 8]
    [WriteResp.ok 4, WriteResp.eintr, WriteResp.ok 5] 0 [1, 2, 3, 4, 5, 6]
    (by decide) (by decide)

end Screen2Cam
